import Mathlib

/-!
Shallow embedding of the pdf-creator repository's core logic
(src/src/services/pdfService.tsx, src/src/components/ImageLayout.tsx,
src/src/App.tsx) together with theorems checking the specification's
claims against it.

Numbers that are JavaScript `number`s in the source are modelled as
rationals (ℚ); byte sizes are naturals.  Fallible operations return
`Except PDFErr`.  File contents are abstracted by the observable facts
the code branches on: whether the bytes decode as the declared image
type, whether a PDF loads, and how many pages it has.
-/

namespace PdfCreator

/-- Margin record of `PDFOptions` (pdfService.tsx lines 7-12). -/
structure Margins where
  top : ℚ
  right : ℚ
  bottom : ℚ
  left : ℚ
deriving DecidableEq

/-- Border record of `PDFOptions` (pdfService.tsx lines 13-17). -/
structure Border where
  enabled : Bool
  width : ℚ
  color : String
deriving DecidableEq

/-- Page orientation (pdfService.tsx line 18). -/
inductive Orientation where
  | portrait
  | landscape
deriving DecidableEq

/-- `PDFOptions` (pdfService.tsx lines 5-19).  `imagesPerPage` is typed
`1 | 2 | 4` in TypeScript; here it is a `Nat` and theorems carry the
membership hypothesis where it matters. -/
structure PDFOptions where
  imagesPerPage : Nat
  margins : Margins
  border : Border
  orientation : Orientation
deriving DecidableEq

/-- A browser `File` as the code observes it: metadata (`name`, `type`,
`size`) plus abstractions of its bytes. `imageDecodable` says whether
`embedJpg`/`embedPng` succeeds on the bytes for the declared type and
`decodeErrMsg` is the library's error message when it does not;
`naturalW`/`naturalH` are the decoded image's pixel dimensions;
`pdfLoadable`, `loadErrMsg` and `pdfPageCount` play the same roles for
`PDFDocument.load`. -/
structure InputFile where
  name : String
  type : String
  size : Nat
  naturalW : ℚ
  naturalH : ℚ
  imageDecodable : Bool
  decodeErrMsg : String
  pdfLoadable : Bool
  loadErrMsg : String
  pdfPageCount : Nat
deriving DecidableEq

/-- Decidable equality for `Except`, used to evaluate the embedding on
concrete inputs. -/
instance {ε : Type u} {α : Type v} [DecidableEq ε] [DecidableEq α] :
    DecidableEq (Except ε α) := fun a b =>
  match a, b with
  | .ok x, .ok y =>
    if h : x = y then .isTrue (by rw [h]) else .isFalse (by simp [h])
  | .error x, .error y =>
    if h : x = y then .isTrue (by rw [h]) else .isFalse (by simp [h])
  | .ok _, .error _ => .isFalse (by simp)
  | .error _, .ok _ => .isFalse (by simp)

/-- `PDFError` (pdfService.tsx lines 21-26): a message plus an optional
file name. -/
structure PDFErr where
  message : String
  fileName : Option String
deriving DecidableEq

/-- pdfService.tsx line 3. -/
def MAX_FILE_SIZE : Nat := 100 * 1024 * 1024

/-- `supportedTypes` (pdfService.tsx lines 38-43).  Note it has four
entries, including the nonstandard `image/jpg`. -/
def supportedTypes : List String :=
  ["image/jpeg", "image/jpg", "image/png", "application/pdf"]

/-- `supportedExtensions` (pdfService.tsx line 45). -/
def supportedExtensions : List String :=
  [".pdf", ".jpg", ".jpeg", ".png", ".jpe", ".jif", ".jfif"]

/-- JavaScript `String.prototype.lastIndexOf` for a single character:
index of the last occurrence, or -1. -/
def jsLastIndexOf (l : List Char) (c : Char) : Int :=
  match l.reverse.findIdx? (fun x => x == c) with
  | some i => (l.length : Int) - 1 - (i : Int)
  | none => -1

/-- JavaScript `String.prototype.slice` with one argument: a negative
start counts from the end (clamped at 0). -/
def jsSlice (l : List Char) (start : Int) : List Char :=
  let b : Nat :=
    if start < 0 then ((l.length : Int) + start).toNat
    else min start.toNat l.length
  l.drop b

/-- `file.name.toLowerCase().slice(file.name.lastIndexOf('.'))`
(pdfService.tsx line 46): the last-dot extension of the lower-cased
name (the whole last character if there is no dot, since `slice(-1)`
starts one before the end). -/
def fileExtension (name : String) : String :=
  String.mk (jsSlice (name.toList.map Char.toLower) (jsLastIndexOf name.toList '.'))

/-- `PDFService.validateFile` (pdfService.tsx lines 29-53) on a present
(non-null) file; the `!file` guard of line 30 cannot fire for an actual
`File` object. -/
def validateFile (file : InputFile) : Option String :=
  if MAX_FILE_SIZE < file.size then
    some ("File " ++ file.name ++ " is too large. Maximum size is 100MB")
  else if file.type ∉ supportedTypes
      ∨ fileExtension file.name ∉ supportedExtensions then
    some ("File " ++ file.name
      ++ " is not supported. Please use PDF, JPG, JPEG, or PNG files")
  else
    none

/-- A rectangle in output-page coordinates (origin bottom-left). -/
structure Rect where
  x : ℚ
  y : ℚ
  width : ℚ
  height : ℚ
deriving DecidableEq

/-- Fuel-driven core of `chunkArray`; fuel only ensures structural
termination and is always supplied as the list length, which suffices
whenever `size ≥ 1` (the only values the code passes). -/
def chunkArrayAux (size : Nat) : Nat → List α → List (List α)
  | 0, _ => []
  | _, [] => []
  | fuel + 1, l => l.take size :: chunkArrayAux size fuel (l.drop size)

/-- `PDFService.chunkArray` (pdfService.tsx lines 237-243): consecutive
chunks of `size` elements (the JavaScript loop does not terminate for
`size = 0`; the model is only used, and only faithful, for `size ≥ 1`). -/
def chunkArray (l : List α) (size : Nat) : List (List α) :=
  chunkArrayAux size l.length l

/-- `PageSizes.A4` of pdf-lib: `[595.28, 841.89]` points. -/
def A4 : ℚ × ℚ := (59528 / 100, 84189 / 100)

/-- The page size chosen in `addImagesToDocument` (pdfService.tsx lines
109-111): A4, with width and height swapped in landscape. -/
def pageSize (o : Orientation) : ℚ × ℚ :=
  match o with
  | .landscape => (A4.2, A4.1)
  | .portrait => A4

/-- The slot rectangle computed inside `addImagesToDocument`
(pdfService.tsx lines 118-133) for the image at index `i` of its group:
grid shape from `imagesPerPage`, gutters reusing the right/bottom
margins, `row = Math.floor(i / cols)`, `col = i % cols` (JavaScript
remainder on non-negative integers is `i - cols·⌊i/cols⌋`). -/
def layoutSlot (pageW pageH : ℚ) (m : Margins) (imagesPerPage : Nat)
    (i : Nat) : Rect :=
  let cols : ℚ := if imagesPerPage = 4 then 2 else 1
  let rows : ℚ := if imagesPerPage = 1 then 1 else 2
  let contentWidth := pageW - m.left - m.right
  let contentHeight := pageH - m.top - m.bottom
  let imageWidth := (contentWidth - (cols - 1) * m.right) / cols
  let imageHeight := (contentHeight - (rows - 1) * m.bottom) / rows
  let row : ℤ := ⌊(i : ℚ) / cols⌋
  let col : ℚ := (i : ℚ) - cols * (row : ℚ)
  { x := m.left + col * (imageWidth + m.right)
    y := pageH - m.top - ((row : ℚ) + 1) * imageHeight - (row : ℚ) * m.bottom
    width := imageWidth
    height := imageHeight }

/-- The slot rectangle as §4.2 of the spec words it (claim C4): written
independently of `layoutSlot` for comparison, with natural-number
floor-division and remainder for `row`/`col`. -/
def slotRectSpec (pageW pageH : ℚ) (m : Margins) (imagesPerPage : Nat)
    (i : Nat) : Rect :=
  let cols : Nat := if imagesPerPage = 4 then 2 else 1
  let rows : Nat := if imagesPerPage = 1 then 1 else 2
  let slotWidth : ℚ :=
    (pageW - m.left - m.right - ((cols : ℚ) - 1) * m.right) / (cols : ℚ)
  let slotHeight : ℚ :=
    (pageH - m.top - m.bottom - ((rows : ℚ) - 1) * m.bottom) / (rows : ℚ)
  let row : Nat := i / cols
  let col : Nat := i % cols
  { x := m.left + (col : ℚ) * (slotWidth + m.right)
    y := pageH - m.top - ((row : ℚ) + 1) * slotHeight - (row : ℚ) * m.bottom
    width := slotWidth
    height := slotHeight }

/-- The aspect-preserving fit-and-center of `embedImageInPage`
(pdfService.tsx lines 177-187): shrink one side of the slot to match the
image's aspect ratio, then center the result in the slot. -/
def fitImage (naturalW naturalH : ℚ) (dim : Rect) : Rect :=
  let aspectRatio := naturalW / naturalH
  let width := if aspectRatio < dim.width / dim.height
    then dim.height * aspectRatio else dim.width
  let height := if aspectRatio < dim.width / dim.height
    then dim.height else dim.width / aspectRatio
  { x := dim.x + (dim.width - width) / 2
    y := dim.y + (dim.height - height) / 2
    width := width
    height := height }

/-- A JavaScript `\w` word character without the unicode flag:
`[A-Za-z0-9_]`, stated on code points. -/
def isWordChar (c : Char) : Bool :=
  (48 ≤ c.toNat && c.toNat ≤ 57) || (65 ≤ c.toNat && c.toNat ≤ 90)
    || (97 ≤ c.toNat && c.toNat ≤ 122) || c.toNat == 95

/-- Global matching of the regex `/\w\w/g` (pdfService.tsx line 192):
scan left to right, taking non-overlapping two-word-character matches
and advancing one position where no match starts. -/
def matchPairs : List Char → List (List Char)
  | [] => []
  | [_] => []
  | a :: b :: rest =>
    if isWordChar a && isWordChar b then [a, b] :: matchPairs rest
    else matchPairs (b :: rest)

/-- Value of a hexadecimal digit character, `none` otherwise, stated on
code points (0-9, a-f, A-F). -/
def hexDigit? (c : Char) : Option Nat :=
  if 48 ≤ c.toNat && c.toNat ≤ 57 then some (c.toNat - 48)
  else if 97 ≤ c.toNat && c.toNat ≤ 102 then some (c.toNat - 87)
  else if 65 ≤ c.toNat && c.toNat ≤ 70 then some (c.toNat - 55)
  else none

/-- JavaScript `parseInt(s, 16)` on the strings the regex can produce
(word characters only, so no whitespace or sign handling): parse the
maximal leading run of hex digits; `none` models `NaN` when the run is
empty. -/
def parseIntHex (l : List Char) : Option Nat :=
  let digits := l.takeWhile (fun c => (hexDigit? c).isSome)
  match digits with
  | [] => none
  | _ => some (digits.foldl (fun acc c => acc * 16 + (hexDigit? c).getD 0) 0)

/-- The border-color parsing of `embedImageInPage` (pdfService.tsx lines
191-193): `color.match(/\w\w/g)!.map(x => parseInt(x, 16) / 255)`.
`none` models the regex returning null (the non-null assertion lies, and
`.map` on null throws); an inner `none` models a `NaN` component. -/
def parseBorderColor (color : String) : Option (List (Option ℚ)) :=
  match matchPairs color.toList with
  | [] => none
  | pairs => some (pairs.map (fun p => (parseIntHex p).map (fun v => (v : ℚ) / 255)))

/-- JavaScript `String.prototype.includes`, via an explicit contiguous
run search. -/
def leadMatch : List Char → List Char → Bool
  | [], _ => true
  | _ :: _, [] => false
  | a :: as, b :: bs => a == b && leadMatch as bs

/-- Whether `sub` occurs as a contiguous run inside `t`. -/
def runsInside (sub : List Char) : List Char → Bool
  | [] => leadMatch sub []
  | c :: rest => leadMatch sub (c :: rest) || runsInside sub rest

/-- `s.includes(sub)` for strings. -/
def strIncludes (s sub : String) : Bool :=
  runsInside sub.toList s.toList

/-- `s.startsWith(p)` for strings, via the same character-list prefix
check. -/
def strStartsWith (s p : String) : Bool :=
  leadMatch p.toList s.toList

/-- An output page: one page created for a group of images, or one page
copied from an input PDF (identified by the file and the page's original
index). -/
inductive Page where
  | imagePage (group : List InputFile)
  | pdfPage (file : InputFile) (idx : Nat)
deriving DecidableEq

/-- Whether `rgb(r, g, b)` of pdf-lib accepts the components destructured
from the parsed color list: the first three entries must exist and be
real numbers (pdf-lib asserts each is in range, which a present
two-word-character `parseInt` value always is; a missing entry is
`undefined` and a `NaN` entry fails the assertion). -/
def rgbComponentsOk (comps : List (Option ℚ)) : Bool :=
  comps.length ≥ 3 && (comps.take 3).all (fun c => c.isSome)

/-- The body of `embedImageInPage` after a successful decode
(pdfService.tsx lines 177-205): compute the fitted box and, when the
border is enabled, parse the color and draw the border rectangle.  The
only observable failure source here is the border-color parsing (a null
regex match makes `.map` throw a TypeError; pdf-lib's `rgb` rejects
missing or `NaN` components), whose message is abstracted. -/
def afterDecode (f : InputFile) (dim : Rect) (b : Border) :
    Except PDFErr Unit :=
  let _fitted := fitImage f.naturalW f.naturalH dim
  if b.enabled then
    match parseBorderColor b.color with
    | none =>
      .error ⟨"Failed to embed image: cannot read properties of null", some f.name⟩
    | some comps =>
      if rgbComponentsOk comps then .ok ()
      else .error ⟨"Failed to embed image: invalid rgb component", some f.name⟩
  else .ok ()

/-- `PDFService.embedImageInPage` (pdfService.tsx lines 149-209): branch
on the declared subtype via `String.includes`, decode (failing with the
library's message), then fit/border/draw; every throw is caught and
rewrapped as `Failed to embed image: <message>` naming the file. -/
def embedImageInPage (f : InputFile) (dim : Rect) (b : Border) :
    Except PDFErr Unit :=
  if strIncludes f.type "jpeg" || strIncludes f.type "jpg" then
    if f.imageDecodable then afterDecode f dim b
    else .error ⟨"Failed to embed image: " ++ f.decodeErrMsg, some f.name⟩
  else if strIncludes f.type "png" then
    if f.imageDecodable then afterDecode f dim b
    else .error ⟨"Failed to embed image: " ++ f.decodeErrMsg, some f.name⟩
  else
    .error ⟨"Failed to embed image: Unsupported image format: " ++ f.type,
      some f.name⟩

/-- The inner loop of `addImagesToDocument` (pdfService.tsx lines
127-142): embed each image of a group at its slot, sequentially,
stopping at the first failure. -/
def embedGroup (o : PDFOptions) (pageW pageH : ℚ) :
    Nat → List InputFile → Except PDFErr Unit
  | _, [] => .ok ()
  | i, f :: rest =>
    match embedImageInPage f
        (layoutSlot pageW pageH o.margins o.imagesPerPage i) o.border with
    | .ok _ => embedGroup o pageW pageH (i + 1) rest
    | .error e => .error e

/-- One iteration of the group loop of `addImagesToDocument`
(pdfService.tsx lines 113-146): add a page and embed the group; the
surrounding `catch` replaces any failure by the constant error
`Only jpg, pdf, png are allowed` (dropping the inner message and file
name). -/
def processGroup (o : PDFOptions) (g : List InputFile) :
    Except PDFErr Page :=
  match embedGroup o (pageSize o.orientation).1 (pageSize o.orientation).2 0 g with
  | .ok _ => .ok (Page.imagePage g)
  | .error _ => .error ⟨"Only jpg, pdf, png are allowed", none⟩

/-- Sequential effectful map over `Except`, modelling the code's
`for`-loops with early exit on the first thrown error. -/
def mapExcept (f : α → Except PDFErr β) : List α → Except PDFErr (List β)
  | [] => .ok []
  | a :: rest =>
    match f a with
    | .error e => .error e
    | .ok b =>
      match mapExcept f rest with
      | .error e => .error e
      | .ok bs => .ok (b :: bs)

/-- `PDFService.addImagesToDocument` (pdfService.tsx lines 101-147),
returning the image pages it appends to the document. -/
def addImagesToDocument (o : PDFOptions) (images : List InputFile) :
    Except PDFErr (List Page) :=
  mapExcept (processGroup o) (chunkArray images o.imagesPerPage)

/-- `PDFService.addPDFToPDF` (pdfService.tsx lines 211-235), returning
the pages it appends: load the PDF (wrapping a load failure as
`Failed to merge PDF: <message>` naming the file), fail on an empty
document, else copy all pages in original order. -/
def addPDFToPDF (f : InputFile) : Except PDFErr (List Page) :=
  if !f.pdfLoadable then
    .error ⟨"Failed to merge PDF: " ++ f.loadErrMsg, some f.name⟩
  else if f.pdfPageCount = 0 then
    .error ⟨"PDF document has no pages", some f.name⟩
  else
    .ok ((List.range f.pdfPageCount).map (Page.pdfPage f))

/-- The partition of `createPDF` (pdfService.tsx lines 64-73): a
`forEach` pushing files whose type starts with `image/` into `images`,
files whose type is exactly `application/pdf` into `pdfs`, and dropping
the rest; written as an order-preserving recursion. -/
def classifyFiles : List InputFile → List InputFile × List InputFile
  | [] => ([], [])
  | f :: rest =>
    if strStartsWith f.type "image/" then
      (f :: (classifyFiles rest).1, (classifyFiles rest).2)
    else if f.type = "application/pdf" then
      ((classifyFiles rest).1, f :: (classifyFiles rest).2)
    else classifyFiles rest

/-- `PDFService.createPDF` (pdfService.tsx lines 55-99), at page
granularity: reject an empty list, partition, add image pages, then
append every input PDF's pages (the `catch` around `addPDFToPDF` only
rethrows `PDFError`s, which all modelled errors are); `save` is the
identity on the accumulated page list. -/
def createPDF (files : List InputFile) (o : PDFOptions) :
    Except PDFErr (List Page) :=
  if files = [] then .error ⟨"No files provided", none⟩
  else
    match (if (classifyFiles files).1 = [] then .ok []
      else addImagesToDocument o (classifyFiles files).1 :
        Except PDFErr (List Page)) with
    | .error e => .error e
    | .ok imagePages =>
      match mapExcept addPDFToPDF (classifyFiles files).2 with
      | .error e => .error e
      | .ok pdfPageLists => .ok (imagePages ++ pdfPageLists.flatten)

/-- One side of the margins record. -/
inductive MarginSide where
  | top
  | right
  | bottom
  | left
deriving DecidableEq

/-- Update one margin side. -/
def Margins.setSide (m : Margins) : MarginSide → ℚ → Margins
  | .top, v => { m with top := v }
  | .right, v => { m with right := v }
  | .bottom, v => { m with bottom := v }
  | .left, v => { m with left := v }

/-- A user edit the `ImageLayout` component can emit (ImageLayout.tsx):
every `onChange`/`onClick` handler that calls `updateOptions`.  Raw
numeric input is carried as a rational (the value of
`Number(e.target.value)`). -/
inductive UIEvent where
  | setImagesPerPage (n : Nat)
  | setOrientation (o : Orientation)
  | setMargin (side : MarginSide) (raw : ℚ)
  | setBorderEnabled (b : Bool)
  | setBorderWidth (raw : ℚ)
  | setBorderColor (c : String)
deriving DecidableEq

/-- The state update each handler performs (ImageLayout.tsx):
margins are clamped with `Math.max(0, Math.min(100, v))` (lines
119-124) and border width with `Math.max(0.1, Math.min(10, v))` (lines
162-167); the other handlers store the value unchanged. -/
def applyEvent (o : PDFOptions) : UIEvent → PDFOptions
  | .setImagesPerPage n => { o with imagesPerPage := n }
  | .setOrientation orient => { o with orientation := orient }
  | .setMargin side raw =>
    { o with margins := o.margins.setSide side (max 0 (min 100 raw)) }
  | .setBorderEnabled b => { o with border := { o.border with enabled := b } }
  | .setBorderWidth raw =>
    { o with border := { o.border with width := max (1 / 10) (min 10 raw) } }
  | .setBorderColor c => { o with border := { o.border with color := c } }

/-- The initial `layoutOptions` state of `App` (App.tsx lines 11-25):
one image per page, portrait, 20mm margins, border off with width 1 and
black color. -/
def initialOptions : PDFOptions :=
  { imagesPerPage := 1
    margins := { top := 20, right := 20, bottom := 20, left := 20 }
    border := { enabled := false, width := 1, color := "#000000" }
    orientation := .portrait }

/-- The clamping invariant of claim C6: every margin in [0, 100] and the
border width in [0.1, 10]. -/
def optionsClamped (o : PDFOptions) : Prop :=
  0 ≤ o.margins.top ∧ o.margins.top ≤ 100 ∧
  0 ≤ o.margins.right ∧ o.margins.right ≤ 100 ∧
  0 ≤ o.margins.bottom ∧ o.margins.bottom ≤ 100 ∧
  0 ≤ o.margins.left ∧ o.margins.left ≤ 100 ∧
  1 / 10 ≤ o.border.width ∧ o.border.width ≤ 10

/-- Sample input file used by concrete witnesses: only the fields a
given computation reads matter. -/
def sampleFile (name type : String) (size : Nat) : InputFile :=
  { name := name, type := type, size := size, naturalW := 2, naturalH := 1
    imageDecodable := true, decodeErrMsg := ""
    pdfLoadable := true, loadErrMsg := "", pdfPageCount := 1 }

/-- The two validator error messages differ for every file name (they
share the `File <name>` prefix but have suffixes of different lengths). -/
theorem tooLarge_ne_notSupported (n : String) :
    "File " ++ n ++ " is too large. Maximum size is 100MB" ≠
      "File " ++ n ++ " is not supported. Please use PDF, JPG, JPEG, or PNG files" := by
  intro h
  have hlen := congrArg String.length h
  have e1 : (" is too large. Maximum size is 100MB" : String).length = 36 := rfl
  have e2 : (" is not supported. Please use PDF, JPG, JPEG, or PNG files" : String).length = 58 := rfl
  simp only [String.length_append, e1, e2] at hlen
  omega

/-- Claim C8: assembling an empty file list fails with the no-files
error for every options value, before any document is constructed. -/
theorem createPDF_empty_input (o : PDFOptions) :
    createPDF [] o = .error ⟨"No files provided", none⟩ := rfl

/-- Claim C9 counterexample: for an oversized file named `big.pdf` the
validator's message is `File big.pdf is too large. Maximum size is
100MB`, which is not the claimed exact message
`big.pdf is too large. Maximum size is 100MB` (the code prepends
`File `). -/
theorem validateFile_size_message_cex :
    validateFile (sampleFile "big.pdf" "application/pdf" (100 * 1024 * 1024 + 1)) =
      some "File big.pdf is too large. Maximum size is 100MB" ∧
    "File big.pdf is too large. Maximum size is 100MB" ≠
      "big.pdf is too large. Maximum size is 100MB" := by
  constructor
  · decide
  · decide

/-- Claim C9 (amended): `validateFile` rejects on size exactly when the
size exceeds 100 MiB, in that case with the message
`File <name> is too large. Maximum size is 100MB`; a file of valid
declared type and extension at or below the limit passes. -/
theorem validateFile_size_check (f : InputFile) :
    (MAX_FILE_SIZE < f.size →
      validateFile f =
        some ("File " ++ f.name ++ " is too large. Maximum size is 100MB")) ∧
    (f.size ≤ MAX_FILE_SIZE →
      validateFile f ≠
        some ("File " ++ f.name ++ " is too large. Maximum size is 100MB")) ∧
    (f.size ≤ MAX_FILE_SIZE → f.type ∈ supportedTypes →
      fileExtension f.name ∈ supportedExtensions →
      validateFile f = none) := by
  refine ⟨fun h => ?_, fun h => ?_, fun h ht he => ?_⟩
  · simp [validateFile, h]
  · have h' : ¬ MAX_FILE_SIZE < f.size := by omega
    simp only [validateFile, if_neg h']
    split
    · intro hcontra
      exact tooLarge_ne_notSupported f.name ((Option.some.injEq _ _).mp hcontra).symm
    · simp
  · have h' : ¬ MAX_FILE_SIZE < f.size := by omega
    simp [validateFile, h', ht, he]

/-- Claim C9 witness: an oversized PDF is rejected with the amended
message and a small valid PNG passes. -/
theorem validateFile_size_check_witness :
    validateFile (sampleFile "doc.pdf" "application/pdf" (100 * 1024 * 1024 + 1)) =
      some ("File " ++ "doc.pdf" ++ " is too large. Maximum size is 100MB") ∧
    validateFile (sampleFile "ok.png" "image/png" 1024) = none :=
  ⟨(validateFile_size_check (sampleFile "doc.pdf" "application/pdf" (100 * 1024 * 1024 + 1))).1
      (by decide),
   (validateFile_size_check (sampleFile "ok.png" "image/png" 1024)).2.2
      (by decide) (by decide) (by decide)⟩

/-- Claim C3 counterexample: a small file with declared type
`image/jpg` — outside the claimed three-element set — and extension
`.jpg` is accepted by `validateFile` (the code's set has four entries),
and an oversized file with declared type `text/plain` is rejected with
the too-large message, not the not-supported message. -/
theorem validateFile_type_set_cex :
    validateFile (sampleFile "a.jpg" "image/jpg" 1024) = none ∧
    ("image/jpg" ∈ ["image/jpeg", "image/png", "application/pdf"] → False) ∧
    validateFile (sampleFile "big.txt" "text/plain" (100 * 1024 * 1024 + 1)) =
      some "File big.txt is too large. Maximum size is 100MB" := by
  refine ⟨by decide, by decide, by decide⟩

/-- Claim C3 (amended): for a file within the size limit, `validateFile`
accepts exactly when the declared type is in the four-element set
{image/jpeg, image/jpg, image/png, application/pdf} and the lower-cased
last-dot extension is in {.pdf, .jpg, .jpeg, .png, .jpe, .jif, .jfif};
otherwise it rejects with the not-supported message. -/
theorem validateFile_accept_characterization (f : InputFile)
    (hsize : f.size ≤ MAX_FILE_SIZE) :
    (validateFile f = none ↔
      (f.type ∈ supportedTypes ∧ fileExtension f.name ∈ supportedExtensions)) ∧
    (¬ (f.type ∈ supportedTypes ∧ fileExtension f.name ∈ supportedExtensions) →
      validateFile f =
        some ("File " ++ f.name
          ++ " is not supported. Please use PDF, JPG, JPEG, or PNG files")) := by
  have h' : ¬ MAX_FILE_SIZE < f.size := by omega
  constructor
  · constructor
    · intro hnone
      by_contra hc
      simp [validateFile, h', Decidable.not_and_iff_or_not.mp hc] at hnone
    · rintro ⟨ht, he⟩
      simp [validateFile, h', ht, he]
  · intro hc
    rcases Decidable.not_and_iff_or_not.mp hc with hc' | hc' <;>
      simp [validateFile, h', hc']

/-- Claim C3 witness: a valid small PNG is accepted; a small file with
matching extension but unsupported declared type `image/gif` is
rejected with the not-supported message. -/
theorem validateFile_accept_characterization_witness :
    (validateFile (sampleFile "pic.jpeg" "image/jpeg" 2048) = none) ∧
    validateFile (sampleFile "anim.png" "image/gif" 2048) =
      some ("File " ++ "anim.png"
        ++ " is not supported. Please use PDF, JPG, JPEG, or PNG files") :=
  ⟨((validateFile_accept_characterization (sampleFile "pic.jpeg" "image/jpeg" 2048)
      (by decide)).1).mpr ⟨by decide, by decide⟩,
   (validateFile_accept_characterization (sampleFile "anim.png" "image/gif" 2048)
      (by decide)).2 (by intro hc; exact absurd hc.1 (by decide))⟩

/-- Each UI edit preserves the clamping invariant. -/
theorem applyEvent_preserves_clamped (o : PDFOptions) (e : UIEvent)
    (h : optionsClamped o) : optionsClamped (applyEvent o e) := by
  have hclamp0 : ∀ raw : ℚ, 0 ≤ max 0 (min 100 raw) ∧ max 0 (min 100 raw) ≤ 100 :=
    fun raw => ⟨le_max_left _ _, max_le (by norm_num) (min_le_left _ _)⟩
  have hclamp1 : ∀ raw : ℚ,
      1 / 10 ≤ max (1 / 10) (min 10 raw) ∧ max (1 / 10) (min 10 raw) ≤ 10 :=
    fun raw => ⟨le_max_left _ _, max_le (by norm_num) (min_le_left _ _)⟩
  obtain ⟨h1, h2, h3, h4, h5, h6, h7, h8, h9, h10⟩ := h
  cases e with
  | setImagesPerPage n => exact ⟨h1, h2, h3, h4, h5, h6, h7, h8, h9, h10⟩
  | setOrientation orient => exact ⟨h1, h2, h3, h4, h5, h6, h7, h8, h9, h10⟩
  | setBorderEnabled b => exact ⟨h1, h2, h3, h4, h5, h6, h7, h8, h9, h10⟩
  | setBorderColor c => exact ⟨h1, h2, h3, h4, h5, h6, h7, h8, h9, h10⟩
  | setBorderWidth raw =>
    exact ⟨h1, h2, h3, h4, h5, h6, h7, h8, (hclamp1 raw).1, (hclamp1 raw).2⟩
  | setMargin side raw =>
    cases side <;>
      simp only [optionsClamped, applyEvent, Margins.setSide] <;>
      exact ⟨by first | exact (hclamp0 raw).1 | assumption,
             by first | exact (hclamp0 raw).2 | assumption,
             by first | exact (hclamp0 raw).1 | assumption,
             by first | exact (hclamp0 raw).2 | assumption,
             by first | exact (hclamp0 raw).1 | assumption,
             by first | exact (hclamp0 raw).2 | assumption,
             by first | exact (hclamp0 raw).1 | assumption,
             by first | exact (hclamp0 raw).2 | assumption,
             h9, h10⟩

/-- Claim C6: starting from the application's initial options, every
sequence of user edits leaves all margins clamped to [0, 100] and the
border width clamped to [0.1, 10], so every merge invocation reads
clamped values. -/
theorem options_always_clamped (evs : List UIEvent) :
    optionsClamped (evs.foldl applyEvent initialOptions) := by
  suffices hgen : ∀ o, optionsClamped o →
      optionsClamped (evs.foldl applyEvent o) from
    hgen initialOptions (by constructor <;> norm_num [initialOptions])
  induction evs with
  | nil => exact fun o h => h
  | cons e rest ih =>
    intro o h
    exact ih (applyEvent o e) (applyEvent_preserves_clamped o e h)

/-- Chunks flatten back to the original list (fuel version). -/
theorem chunkArrayAux_flatten (size : Nat) (hs : 0 < size) :
    ∀ (fuel : Nat) (l : List α), l.length ≤ fuel →
      (chunkArrayAux size fuel l).flatten = l := by
  intro fuel
  induction fuel with
  | zero =>
    intro l h
    have : l = [] := List.length_eq_zero.mp (Nat.le_zero.mp h)
    subst this
    rfl
  | succ n ih =>
    intro l h
    cases l with
    | nil => rfl
    | cons a rest =>
      simp only [chunkArrayAux, List.flatten_cons]
      rw [ih (List.drop size (a :: rest))
        (by simp only [List.length_drop, List.length_cons]
            simp only [List.length_cons] at h
            omega)]
      exact List.take_append_drop size (a :: rest)

/-- One step of the ceiling-division recurrence behind `chunkArray`'s
page count. -/
theorem ceil_div_step (m size : Nat) (hs : 0 < size) (hm : 0 < m) :
    (m - size + size - 1) / size + 1 = (m + size - 1) / size := by
  rcases Nat.lt_or_ge m (size + 1) with hlt | hge
  · have h1 : m - size = 0 := by omega
    rw [h1]
    have h2 : (0 + size - 1) / size = 0 := Nat.div_eq_of_lt (by omega)
    rw [h2]
    have h3 : (m + size - 1) / size = 1 :=
      Nat.div_eq_of_lt_le (by omega) (by omega)
    omega
  · have h1 : m - size + size - 1 = m - 1 := by omega
    rw [h1]
    have h2 : m + size - 1 = m - 1 + size := by omega
    rw [h2, Nat.add_div_right _ hs]

/-- The number of chunks is `⌈length / size⌉` (fuel version). -/
theorem chunkArrayAux_length (size : Nat) (hs : 0 < size) :
    ∀ (fuel : Nat) (l : List α), l.length ≤ fuel →
      (chunkArrayAux size fuel l).length = (l.length + size - 1) / size := by
  intro fuel
  have hzero : (0 + size - 1) / size = 0 := Nat.div_eq_of_lt (by omega)
  induction fuel with
  | zero =>
    intro l h
    have : l = [] := List.length_eq_zero.mp (Nat.le_zero.mp h)
    subst this
    simpa [chunkArrayAux] using hzero.symm
  | succ n ih =>
    intro l h
    cases l with
    | nil => simpa [chunkArrayAux] using hzero.symm
    | cons a rest =>
      simp only [chunkArrayAux, List.length_cons]
      rw [ih (List.drop size (a :: rest))
        (by simp only [List.length_drop, List.length_cons]
            simp only [List.length_cons] at h
            omega)]
      simp only [List.length_drop, List.length_cons]
      exact ceil_div_step (rest.length + 1) size hs (by omega)

/-- Chunk `i` is the window of `size` elements starting at `i * size`
(fuel version). -/
theorem chunkArrayAux_getD (size : Nat) (hs : 0 < size) :
    ∀ (fuel : Nat) (l : List α) (i : Nat), l.length ≤ fuel →
      (chunkArrayAux size fuel l).getD i [] =
        (l.drop (i * size)).take size := by
  intro fuel
  induction fuel with
  | zero =>
    intro l i h
    have : l = [] := List.length_eq_zero.mp (Nat.le_zero.mp h)
    subst this
    simp [chunkArrayAux]
  | succ n ih =>
    intro l i h
    cases l with
    | nil => simp [chunkArrayAux]
    | cons a rest =>
      cases i with
      | zero => simp [chunkArrayAux]
      | succ j =>
        simp only [chunkArrayAux, List.getD_cons_succ]
        rw [ih (List.drop size (a :: rest)) j
          (by simp only [List.length_drop, List.length_cons]
              simp only [List.length_cons] at h
              omega)]
        rw [List.drop_drop]
        congr 1
        ring_nf

/-- Chunks flatten back to the original list. -/
theorem chunkArray_flatten (l : List α) (size : Nat) (hs : 0 < size) :
    (chunkArray l size).flatten = l :=
  chunkArrayAux_flatten size hs l.length l le_rfl

/-- `chunkArray` produces `⌈length / size⌉` chunks. -/
theorem chunkArray_length (l : List α) (size : Nat) (hs : 0 < size) :
    (chunkArray l size).length = (l.length + size - 1) / size :=
  chunkArrayAux_length size hs l.length l le_rfl

/-- Chunk `i` of `chunkArray` is the window starting at `i * size`. -/
theorem chunkArray_getD (l : List α) (size i : Nat) (hs : 0 < size) :
    (chunkArray l size).getD i [] = (l.drop (i * size)).take size :=
  chunkArrayAux_getD size hs l.length l i le_rfl

/-- If every success of `f` is described by `g`, a successful
`mapExcept` maps `g` over the list. -/
theorem mapExcept_ok {f : α → Except PDFErr β} {g : α → β}
    (hfg : ∀ a b, f a = .ok b → b = g a) :
    ∀ {l : List α} {ys : List β}, mapExcept f l = .ok ys → ys = l.map g := by
  intro l
  induction l with
  | nil => intro ys h; cases h; rfl
  | cons a rest ih =>
    intro ys h
    unfold mapExcept at h
    cases hfa : f a with
    | error e => rw [hfa] at h; cases h
    | ok b =>
      rw [hfa] at h
      cases hrest : mapExcept f rest with
      | error e => rw [hrest] at h; cases h
      | ok bs =>
        rw [hrest] at h
        cases h
        rw [hfg a b hfa, ih hrest]
        rfl

/-- If every failure of `f` carries the same error and some element
fails, `mapExcept` fails with that error. -/
theorem mapExcept_error {f : α → Except PDFErr β} {e₀ : PDFErr}
    (hconst : ∀ a e, f a = .error e → e = e₀) :
    ∀ {l : List α}, (∃ a ∈ l, ∃ e, f a = .error e) →
      mapExcept f l = .error e₀ := by
  intro l
  induction l with
  | nil => rintro ⟨a, ha, _⟩; cases ha
  | cons a rest ih =>
    rintro ⟨a', ha', e, he⟩
    unfold mapExcept
    cases hfa : f a with
    | error e' => rw [hconst a e' hfa]
    | ok b =>
      rcases List.mem_cons.mp ha' with rfl | hmem
      · rw [hfa] at he; cases he
      · rw [ih ⟨a', hmem, e, he⟩]

/-- A successful `processGroup` returns the page for its group. -/
theorem processGroup_ok (o : PDFOptions) :
    ∀ (g : List InputFile) (p : Page),
      processGroup o g = .ok p → p = Page.imagePage g := by
  intro g p h
  unfold processGroup at h
  cases hg : embedGroup o (pageSize o.orientation).1 (pageSize o.orientation).2 0 g with
  | ok u => rw [hg] at h; cases h; rfl
  | error e => rw [hg] at h; cases h

/-- Every failure of `processGroup` is the constant group-loop error. -/
theorem processGroup_error (o : PDFOptions) :
    ∀ (g : List InputFile) (e : PDFErr), processGroup o g = .error e →
      e = ⟨"Only jpg, pdf, png are allowed", none⟩ := by
  intro g e h
  unfold processGroup at h
  cases hg : embedGroup o (pageSize o.orientation).1 (pageSize o.orientation).2 0 g with
  | ok u => rw [hg] at h; cases h
  | error e' => rw [hg] at h; cases h; rfl

/-- Claim C7: on success, the assembler produces exactly
`⌈n / imagesPerPage⌉` image pages, one per consecutive chunk of the
input list in input order, each chunk being the `imagesPerPage`-sized
window at its index, and the chunks concatenate back to the input. -/
theorem addImages_chunking (o : PDFOptions) (images : List InputFile)
    (pages : List Page)
    (hk : o.imagesPerPage = 1 ∨ o.imagesPerPage = 2 ∨ o.imagesPerPage = 4)
    (_hne : images ≠ [])
    (h : addImagesToDocument o images = .ok pages) :
    pages.length = (images.length + o.imagesPerPage - 1) / o.imagesPerPage ∧
    pages = (chunkArray images o.imagesPerPage).map Page.imagePage ∧
    (∀ i, (chunkArray images o.imagesPerPage).getD i [] =
      (images.drop (i * o.imagesPerPage)).take o.imagesPerPage) ∧
    (chunkArray images o.imagesPerPage).flatten = images := by
  have hk' : 0 < o.imagesPerPage := by rcases hk with h' | h' | h' <;> omega
  have hpages : pages = (chunkArray images o.imagesPerPage).map Page.imagePage :=
    mapExcept_ok (processGroup_ok o) h
  refine ⟨?_, hpages, fun i => chunkArray_getD images o.imagesPerPage i hk',
    chunkArray_flatten images o.imagesPerPage hk'⟩
  rw [hpages, List.length_map]
  exact chunkArray_length images o.imagesPerPage hk'

/-- A successful `addPDFToPDF` returns all of the PDF's pages in
original order. -/
theorem addPDFToPDF_ok :
    ∀ (f : InputFile) (l : List Page), addPDFToPDF f = .ok l →
      l = (List.range f.pdfPageCount).map (Page.pdfPage f) := by
  intro f l h
  unfold addPDFToPDF at h
  split_ifs at h with h1 h2
  cases h
  rfl

/-- Claim C2: on success, the output page list is the image-derived
pages first — one per chunk of the images, the chunks concatenating back
to the images in input order — followed by, for each PDF input in input
order, all of its pages in original order. -/
theorem createPDF_page_order (files : List InputFile) (o : PDFOptions)
    (pages : List Page) (hk : 0 < o.imagesPerPage)
    (h : createPDF files o = .ok pages) :
    pages =
      (chunkArray (classifyFiles files).1 o.imagesPerPage).map Page.imagePage ++
        ((classifyFiles files).2.map
          (fun f => (List.range f.pdfPageCount).map (Page.pdfPage f))).flatten ∧
    (chunkArray (classifyFiles files).1 o.imagesPerPage).flatten =
      (classifyFiles files).1 := by
  refine ⟨?_, chunkArray_flatten _ _ hk⟩
  unfold createPDF at h
  by_cases hf : files = []
  · rw [if_pos hf] at h; cases h
  · rw [if_neg hf] at h
    cases himg : (if (classifyFiles files).1 = [] then .ok []
        else addImagesToDocument o (classifyFiles files).1 :
          Except PDFErr (List Page)) with
    | error e => rw [himg] at h; cases h
    | ok imagePages =>
      rw [himg] at h
      cases hpdf : mapExcept addPDFToPDF (classifyFiles files).2 with
      | error e => rw [hpdf] at h; cases h
      | ok pdfPageLists =>
        rw [hpdf] at h
        cases h
        have hpdfs : pdfPageLists = (classifyFiles files).2.map
            (fun f => (List.range f.pdfPageCount).map (Page.pdfPage f)) :=
          mapExcept_ok addPDFToPDF_ok hpdf
        by_cases hie : (classifyFiles files).1 = []
        · rw [if_pos hie] at himg
          cases himg
          rw [hpdfs, hie]
          rfl
        · rw [if_neg hie] at himg
          unfold addImagesToDocument at himg
          have himgs : imagePages =
              (chunkArray (classifyFiles files).1 o.imagesPerPage).map
                Page.imagePage :=
            mapExcept_ok (processGroup_ok o) himg
          rw [himgs, hpdfs]

/-- Options used by concrete witnesses: `k` images per page, zero
margins, no border, portrait. -/
def plainOptions (k : Nat) : PDFOptions :=
  { imagesPerPage := k
    margins := { top := 0, right := 0, bottom := 0, left := 0 }
    border := { enabled := false, width := 1, color := "#000000" }
    orientation := .portrait }

/-- A decodable JPEG input used by witnesses. -/
def imgA : InputFile := sampleFile "a.jpg" "image/jpeg" 10

/-- A decodable JPEG input used by witnesses. -/
def imgB : InputFile := sampleFile "b.jpg" "image/jpeg" 10

/-- A decodable JPEG input used by witnesses. -/
def imgC : InputFile := sampleFile "c.jpg" "image/jpeg" 10

/-- A decodable JPEG input used by witnesses. -/
def imgD : InputFile := sampleFile "d.jpg" "image/jpeg" 10

/-- A loadable two-page PDF input used by witnesses. -/
def pdfP : InputFile :=
  { name := "p.pdf", type := "application/pdf", size := 10
    naturalW := 1, naturalH := 1, imageDecodable := false, decodeErrMsg := ""
    pdfLoadable := true, loadErrMsg := "", pdfPageCount := 2 }

/-- A loadable one-page PDF input used by witnesses. -/
def pdfQ : InputFile :=
  { name := "q.pdf", type := "application/pdf", size := 10
    naturalW := 1, naturalH := 1, imageDecodable := false, decodeErrMsg := ""
    pdfLoadable := true, loadErrMsg := "", pdfPageCount := 1 }

/-- Claim C2 witness: merging image A with PDFs P (2 pages) and Q
(1 page) yields page order [A-page, P-page1, P-page2, Q-page1]. -/
theorem createPDF_page_order_witness :
    ([Page.imagePage [imgA], Page.pdfPage pdfP 0, Page.pdfPage pdfP 1,
        Page.pdfPage pdfQ 0] : List Page) =
      (chunkArray (classifyFiles [imgA, pdfP, pdfQ]).1 1).map Page.imagePage ++
        ((classifyFiles [imgA, pdfP, pdfQ]).2.map
          (fun f => (List.range f.pdfPageCount).map (Page.pdfPage f))).flatten ∧
    (chunkArray (classifyFiles [imgA, pdfP, pdfQ]).1 1).flatten =
      (classifyFiles [imgA, pdfP, pdfQ]).1 :=
  createPDF_page_order [imgA, pdfP, pdfQ] (plainOptions 1)
    [Page.imagePage [imgA], Page.pdfPage pdfP 0, Page.pdfPage pdfP 1,
      Page.pdfPage pdfQ 0]
    (by decide) (by decide)

/-- Claim C7 witness: four images at two per page give exactly two image
pages, [A, B] then [C, D]. -/
theorem addImages_chunking_witness :
    ([Page.imagePage [imgA, imgB], Page.imagePage [imgC, imgD]] :
        List Page).length = (4 + 2 - 1) / 2 ∧
    ([Page.imagePage [imgA, imgB], Page.imagePage [imgC, imgD]] : List Page) =
      (chunkArray [imgA, imgB, imgC, imgD] 2).map Page.imagePage ∧
    (chunkArray [imgA, imgB, imgC, imgD] 2).flatten =
      [imgA, imgB, imgC, imgD] := by
  have h := addImages_chunking (plainOptions 2) [imgA, imgB, imgC, imgD]
    [Page.imagePage [imgA, imgB], Page.imagePage [imgC, imgD]]
    (Or.inr (Or.inl rfl)) (by decide) (by decide)
  exact ⟨h.1, h.2.1, h.2.2.2⟩

/-- An image whose bytes do not decode always makes `embedImageInPage`
fail, whatever the slot and border. -/
theorem embedImageInPage_not_decodable (f : InputFile) (dim : Rect)
    (b : Border) (hf : f.imageDecodable = false) :
    ∃ e, embedImageInPage f dim b = .error e := by
  unfold embedImageInPage
  split_ifs with c1 c2 c3 c4 <;>
    first
      | exact ⟨_, rfl⟩
      | simp [hf] at *

/-- A group containing a non-decodable image makes the embed loop fail. -/
theorem embedGroup_error_of_member (o : PDFOptions) (pw ph : ℚ) :
    ∀ (g : List InputFile) (i : Nat),
      (∃ f ∈ g, f.imageDecodable = false) →
      ∃ e, embedGroup o pw ph i g = .error e := by
  intro g
  induction g with
  | nil =>
    rintro i ⟨f, hf, _⟩
    cases hf
  | cons a rest ih =>
    rintro i ⟨f, hf, hdec⟩
    unfold embedGroup
    cases hemb : embedImageInPage a
        (layoutSlot pw ph o.margins o.imagesPerPage i) o.border with
    | error e => exact ⟨e, rfl⟩
    | ok u =>
      rcases List.mem_cons.mp hf with rfl | hmem
      · obtain ⟨e, he⟩ := embedImageInPage_not_decodable f
          (layoutSlot pw ph o.margins o.imagesPerPage i) o.border hdec
        rw [hemb] at he
        cases he
      · obtain ⟨e, he⟩ := ih (i + 1) ⟨f, hmem, hdec⟩
        exact ⟨e, he⟩

/-- A group containing a non-decodable image makes `processGroup` fail
with the constant group-loop error. -/
theorem processGroup_error_of_member (o : PDFOptions) (g : List InputFile)
    (h : ∃ f ∈ g, f.imageDecodable = false) :
    processGroup o g = .error ⟨"Only jpg, pdf, png are allowed", none⟩ := by
  unfold processGroup
  obtain ⟨e, he⟩ := embedGroup_error_of_member o
    (pageSize o.orientation).1 (pageSize o.orientation).2 g 0 h
  rw [he]

/-- An image list containing a non-decodable image makes
`addImagesToDocument` fail with the constant group-loop error. -/
theorem addImages_error_of_member (o : PDFOptions) (images : List InputFile)
    (hk : 0 < o.imagesPerPage)
    (h : ∃ f ∈ images, f.imageDecodable = false) :
    addImagesToDocument o images =
      .error ⟨"Only jpg, pdf, png are allowed", none⟩ := by
  unfold addImagesToDocument
  apply mapExcept_error (processGroup_error o)
  obtain ⟨f, hf, hdec⟩ := h
  have hmem : f ∈ (chunkArray images o.imagesPerPage).flatten := by
    rw [chunkArray_flatten images _ hk]
    exact hf
  obtain ⟨g, hg, hfg⟩ := List.mem_flatten.mp hmem
  exact ⟨g, hg, _, processGroup_error_of_member o g ⟨f, hfg, hdec⟩⟩

/-- A member of the file list with an `image/` type is classified into
the images partition. -/
theorem mem_classify_images (f : InputFile) :
    ∀ files : List InputFile, f ∈ files →
      strStartsWith f.type "image/" = true →
      f ∈ (classifyFiles files).1 := by
  intro files
  induction files with
  | nil => intro h _; cases h
  | cons a rest ih =>
    intro hmem himg
    rcases List.mem_cons.mp hmem with rfl | hmem'
    · simp [classifyFiles, himg]
    · have hf1 := ih hmem' himg
      unfold classifyFiles
      split_ifs with h1 h2
      · exact List.mem_cons_of_mem a hf1
      · exact hf1
      · exact hf1

/-- Claim C1 (amended): an image input whose bytes do not decode as its
declared type makes `createPDF` fail — but with the constant error
`Only jpg, pdf, png are allowed` carrying no file name, because the
group loop's catch discards the embed error that named the file. -/
theorem createPDF_embed_failure (files : List InputFile) (o : PDFOptions)
    (f : InputFile) (hk : 0 < o.imagesPerPage) (hmem : f ∈ files)
    (himg : strStartsWith f.type "image/" = true)
    (hdec : f.imageDecodable = false) :
    createPDF files o = .error ⟨"Only jpg, pdf, png are allowed", none⟩ := by
  have hne : files ≠ [] := by
    rintro rfl
    cases hmem
  have hfimg : f ∈ (classifyFiles files).1 := mem_classify_images f files hmem himg
  have hine : (classifyFiles files).1 ≠ [] := by
    intro h0
    rw [h0] at hfimg
    cases hfimg
  unfold createPDF
  rw [if_neg hne, if_neg hine,
    addImages_error_of_member o _ hk ⟨f, hfimg, hdec⟩]

/-- A JPEG input whose bytes do not decode, used by the C1
counterexample. -/
def badJpeg : InputFile :=
  { name := "photo.jpg", type := "image/jpeg", size := 1000
    naturalW := 4, naturalH := 2
    imageDecodable := false, decodeErrMsg := "bad jpeg data"
    pdfLoadable := false, loadErrMsg := "", pdfPageCount := 0 }

/-- A PNG input whose bytes do not decode, used by the C1 witness. -/
def badPng : InputFile :=
  { name := "scan.png", type := "image/png", size := 1000
    naturalW := 4, naturalH := 2
    imageDecodable := false, decodeErrMsg := "bad png data"
    pdfLoadable := false, loadErrMsg := "", pdfPageCount := 0 }

/-- Claim C1 counterexample: merging a single undecodable JPEG named
`photo.jpg` fails with the message `Only jpg, pdf, png are allowed`,
which does not contain the file's name. -/
theorem createPDF_embed_error_cex :
    createPDF [badJpeg] (plainOptions 1) =
      .error ⟨"Only jpg, pdf, png are allowed", none⟩ ∧
    badJpeg.imageDecodable = false ∧
    strIncludes "Only jpg, pdf, png are allowed" badJpeg.name = false :=
  ⟨by decide, by decide, by decide⟩

/-- Claim C1 witness: the amended failure at a concrete undecodable PNG
input. -/
theorem createPDF_embed_failure_witness :
    createPDF [badPng] (plainOptions 1) =
      .error ⟨"Only jpg, pdf, png are allowed", none⟩ :=
  createPDF_embed_failure [badPng] (plainOptions 1) badPng (by decide)
    (by decide) (by decide) (by decide)

/-- JavaScript's `Math.floor(i / 2)` on a natural `i` is natural
division by two. -/
theorem floor_natCast_div_two (i : ℕ) : ⌊(i : ℚ) / 2⌋ = ((i / 2 : ℕ) : ℤ) := by
  rw [← Int.natCast_floor_eq_floor (by positivity)]
  norm_cast

/-- Claim C4: the slot rectangle the code computes coincides with the
spec's formulas — grid shape, gutters reusing the right/bottom margins,
`row = ⌊i / cols⌋`, `col = i mod cols`, and the x/y/width/height
formulas — for every page size, margins, `imagesPerPage ∈ {1, 2, 4}`
and slot index. -/
theorem layoutSlot_matches_spec (pageW pageH : ℚ) (m : Margins) (k i : Nat)
    (hk : k = 1 ∨ k = 2 ∨ k = 4) :
    layoutSlot pageW pageH m k i = slotRectSpec pageW pageH m k i := by
  have hmod : ((i % 2 : ℕ) : ℚ) = (i : ℚ) - 2 * ((i / 2 : ℕ) : ℚ) := by
    have h := Nat.div_add_mod i 2
    have h' : ((2 * (i / 2) + i % 2 : ℕ) : ℚ) = (i : ℚ) := by rw [h]
    push_cast at h'
    linarith
  rcases hk with rfl | rfl | rfl
  · simp only [layoutSlot, slotRectSpec]
    norm_num [Nat.mod_one, Nat.div_one, Int.floor_natCast]
  · simp only [layoutSlot, slotRectSpec]
    norm_num [Nat.mod_one, Nat.div_one, Int.floor_natCast]
  · simp only [layoutSlot, slotRectSpec]
    norm_num [floor_natCast_div_two]
    have hdiv : ((i : ℤ) / 2) = ((i / 2 : ℕ) : ℤ) := by omega
    simp only [hdiv, Int.cast_natCast]
    constructor
    · left
      linarith [hmod]
    · ring_nf

/-- Claim C4 witness: the code and spec rectangles agree at a concrete
page, margins, four-per-page grid and slot index 3. -/
theorem layoutSlot_matches_spec_witness :
    layoutSlot 100 200 { top := 10, right := 8, bottom := 6, left := 4 } 4 3 =
      slotRectSpec 100 200 { top := 10, right := 8, bottom := 6, left := 4 } 4 3 :=
  layoutSlot_matches_spec 100 200
    { top := 10, right := 8, bottom := 6, left := 4 } 4 3
    (Or.inr (Or.inr rfl))

/-- Claim C5: for positive natural image dimensions and a positive
target rectangle, the fitted draw box preserves the aspect ratio
exactly, fits inside the target rectangle, and is centered in it. -/
theorem fitImage_fits (nw nh : ℚ) (dim : Rect) (hnw : 0 < nw) (hnh : 0 < nh)
    (hw : 0 < dim.width) (hh : 0 < dim.height) :
    (fitImage nw nh dim).width / (fitImage nw nh dim).height = nw / nh ∧
    (fitImage nw nh dim).width ≤ dim.width ∧
    (fitImage nw nh dim).height ≤ dim.height ∧
    (fitImage nw nh dim).x =
      dim.x + (dim.width - (fitImage nw nh dim).width) / 2 ∧
    (fitImage nw nh dim).y =
      dim.y + (dim.height - (fitImage nw nh dim).height) / 2 := by
  have har : 0 < nw / nh := div_pos hnw hnh
  by_cases hcase : nw / nh < dim.width / dim.height
  · simp only [fitImage, if_pos hcase]
    refine ⟨?_, ?_, le_refl _, trivial, trivial⟩
    · field_simp
      ring
    · have h1 : (nw / nh) * dim.height < dim.width := (lt_div_iff₀ hh).mp hcase
      nlinarith
  · simp only [fitImage, if_neg hcase]
    refine ⟨?_, le_refl _, ?_, trivial, trivial⟩
    · rw [div_div_eq_mul_div]
      field_simp
      ring
    · have h1 : dim.width ≤ (nw / nh) * dim.height :=
        (div_le_iff₀ hh).mp (not_lt.mp hcase)
      rw [div_le_iff₀ har]
      nlinarith

/-- Claim C5 witness: a 4×2 image in a 10×10 slot at the origin is fit
to 10×5 and centered. -/
theorem fitImage_fits_witness :
    (fitImage 4 2 ⟨0, 0, 10, 10⟩).width / (fitImage 4 2 ⟨0, 0, 10, 10⟩).height
        = 4 / 2 ∧
    (fitImage 4 2 ⟨0, 0, 10, 10⟩).width ≤ (10 : ℚ) ∧
    (fitImage 4 2 ⟨0, 0, 10, 10⟩).height ≤ (10 : ℚ) ∧
    (fitImage 4 2 ⟨0, 0, 10, 10⟩).x =
      0 + (10 - (fitImage 4 2 ⟨0, 0, 10, 10⟩).width) / 2 ∧
    (fitImage 4 2 ⟨0, 0, 10, 10⟩).y =
      0 + (10 - (fitImage 4 2 ⟨0, 0, 10, 10⟩).height) / 2 :=
  fitImage_fits 4 2 ⟨0, 0, 10, 10⟩ (by norm_num) (by norm_num) (by norm_num)
    (by norm_num)

/-- Whether some two consecutive characters of the list are both word
characters (exactly when `/\w\w/g` has a match). -/
def hasConsecWordChars : List Char → Bool
  | a :: b :: rest => (isWordChar a && isWordChar b) || hasConsecWordChars (b :: rest)
  | _ => false

/-- A hexadecimal digit is a word character. -/
theorem isWordChar_of_hex (c : Char) (h : (hexDigit? c).isSome = true) :
    isWordChar c = true := by
  unfold hexDigit? at h
  unfold isWordChar
  simp only [Bool.or_eq_true, Bool.and_eq_true, decide_eq_true_eq, beq_iff_eq]
  split_ifs at h with h1 h2 h3
  · simp only [Bool.and_eq_true, decide_eq_true_eq] at h1
    omega
  · simp only [Bool.and_eq_true, decide_eq_true_eq] at h2
    omega
  · simp only [Bool.and_eq_true, decide_eq_true_eq] at h3
    omega
  · simp at h

/-- Hexadecimal digit values are below 16. -/
theorem hexDigit?_lt_16 (c : Char) (v : Nat) (h : hexDigit? c = some v) :
    v < 16 := by
  unfold hexDigit? at h
  split_ifs at h with h1 h2 h3 <;>
    simp only [Bool.and_eq_true, decide_eq_true_eq] at * <;>
    (try cases h) <;> omega

/-- `parseInt` of two hexadecimal digits in base 16. -/
theorem parseIntHex_pair (a b : Char) (va vb : Nat)
    (ha : hexDigit? a = some va) (hb : hexDigit? b = some vb) :
    parseIntHex [a, b] = some (va * 16 + vb) := by
  unfold parseIntHex
  simp [List.takeWhile, ha, hb]

/-- `/\w\w/g` on `#` followed by six word characters yields exactly the
three digit pairs. -/
theorem matchPairs_hash_hex (c1 c2 c3 c4 c5 c6 : Char)
    (h1 : isWordChar c1 = true) (h2 : isWordChar c2 = true)
    (h3 : isWordChar c3 = true) (h4 : isWordChar c4 = true)
    (h5 : isWordChar c5 = true) (h6 : isWordChar c6 = true) :
    matchPairs ['#', c1, c2, c3, c4, c5, c6] =
      [[c1, c2], [c3, c4], [c5, c6]] := by
  have h0 : isWordChar '#' = false := by decide
  simp [matchPairs, h0, h1, h2, h3, h4, h5, h6]

/-- With no two consecutive word characters the regex finds no match. -/
theorem matchPairs_nil (l : List Char) (h : hasConsecWordChars l = false) :
    matchPairs l = [] := by
  induction l with
  | nil => rfl
  | cons a tail ih =>
    cases tail with
    | nil => rfl
    | cons b rest =>
      unfold hasConsecWordChars at h
      simp only [Bool.or_eq_false_iff] at h
      unfold matchPairs
      rw [h.1]
      exact ih h.2

/-- The color component contributed by the hexadecimal digit pair
`a`-`b`: `parseInt("ab", 16) / 255`. -/
def hexPairQ (a b : Char) : ℚ :=
  (((hexDigit? a).getD 0 * 16 + (hexDigit? b).getD 0 : ℕ) : ℚ) / 255

/-- Claim C10: for a color of `#` followed by six hexadecimal digits,
the regex match yields exactly three pairs, parsing succeeds, each
component is a real number in [0, 1] and the rgb construction accepts
them — so the non-null assertion never fails; and for a color with no
two consecutive word characters the match is null, so the assertion
fails. -/
theorem borderColor_parsing :
    (∀ c1 c2 c3 c4 c5 c6 : Char,
      (hexDigit? c1).isSome = true → (hexDigit? c2).isSome = true →
      (hexDigit? c3).isSome = true → (hexDigit? c4).isSome = true →
      (hexDigit? c5).isSome = true → (hexDigit? c6).isSome = true →
      parseBorderColor (String.mk ['#', c1, c2, c3, c4, c5, c6]) =
        some [some (hexPairQ c1 c2), some (hexPairQ c3 c4),
          some (hexPairQ c5 c6)] ∧
      rgbComponentsOk [some (hexPairQ c1 c2), some (hexPairQ c3 c4),
        some (hexPairQ c5 c6)] = true ∧
      (0 ≤ hexPairQ c1 c2 ∧ hexPairQ c1 c2 ≤ 1) ∧
      (0 ≤ hexPairQ c3 c4 ∧ hexPairQ c3 c4 ≤ 1) ∧
      (0 ≤ hexPairQ c5 c6 ∧ hexPairQ c5 c6 ≤ 1)) ∧
    (∀ color : String, hasConsecWordChars color.toList = false →
      parseBorderColor color = none) := by
  constructor
  · intro c1 c2 c3 c4 c5 c6 h1 h2 h3 h4 h5 h6
    obtain ⟨v1, hv1⟩ := Option.isSome_iff_exists.mp h1
    obtain ⟨v2, hv2⟩ := Option.isSome_iff_exists.mp h2
    obtain ⟨v3, hv3⟩ := Option.isSome_iff_exists.mp h3
    obtain ⟨v4, hv4⟩ := Option.isSome_iff_exists.mp h4
    obtain ⟨v5, hv5⟩ := Option.isSome_iff_exists.mp h5
    obtain ⟨v6, hv6⟩ := Option.isSome_iff_exists.mp h6
    have hbound : ∀ a b : Char, 0 ≤ hexPairQ a b ∧
        ((hexDigit? a).isSome = true → (hexDigit? b).isSome = true →
          hexPairQ a b ≤ 1) := by
      intro a b
      constructor
      · unfold hexPairQ
        positivity
      · intro ha hb
        obtain ⟨va, hva⟩ := Option.isSome_iff_exists.mp ha
        obtain ⟨vb, hvb⟩ := Option.isSome_iff_exists.mp hb
        have la := hexDigit?_lt_16 a va hva
        have lb := hexDigit?_lt_16 b vb hvb
        unfold hexPairQ
        rw [hva, hvb]
        rw [div_le_one (by norm_num)]
        have hle : Option.getD (some va) 0 * 16 + Option.getD (some vb) 0 ≤ 255 := by
          simp only [Option.getD_some]
          omega
        calc ((Option.getD (some va) 0 * 16 + Option.getD (some vb) 0 : ℕ) : ℚ)
            ≤ (255 : ℕ) := by exact_mod_cast hle
          _ = 255 := by norm_num
    refine ⟨?_, rfl, ⟨(hbound c1 c2).1, (hbound c1 c2).2 h1 h2⟩,
      ⟨(hbound c3 c4).1, (hbound c3 c4).2 h3 h4⟩,
      ⟨(hbound c5 c6).1, (hbound c5 c6).2 h5 h6⟩⟩
    unfold parseBorderColor
    have hlist : (String.mk ['#', c1, c2, c3, c4, c5, c6]).toList =
        ['#', c1, c2, c3, c4, c5, c6] := rfl
    rw [hlist, matchPairs_hash_hex c1 c2 c3 c4 c5 c6
      (isWordChar_of_hex c1 h1) (isWordChar_of_hex c2 h2)
      (isWordChar_of_hex c3 h3) (isWordChar_of_hex c4 h4)
      (isWordChar_of_hex c5 h5) (isWordChar_of_hex c6 h6)]
    simp only [List.map_cons, List.map_nil]
    rw [parseIntHex_pair c1 c2 v1 v2 hv1 hv2,
      parseIntHex_pair c3 c4 v3 v4 hv3 hv4,
      parseIntHex_pair c5 c6 v5 v6 hv5 hv6]
    unfold hexPairQ
    rw [hv1, hv2, hv3, hv4, hv5, hv6]
    simp
  · intro color h
    unfold parseBorderColor
    rw [matchPairs_nil color.toList h]

/-- Claim C10 witness: the parse of `#00ffa5` and the failing match on
`###`. -/
theorem borderColor_parsing_witness :
    parseBorderColor (String.mk ['#', '0', '0', 'f', 'f', 'a', '5']) =
      some [some (hexPairQ '0' '0'), some (hexPairQ 'f' 'f'),
        some (hexPairQ 'a' '5')] ∧
    parseBorderColor "###" = none :=
  ⟨(borderColor_parsing.1 '0' '0' 'f' 'f' 'a' '5' (by decide) (by decide)
      (by decide) (by decide) (by decide) (by decide)).1,
   borderColor_parsing.2 "###" (by decide)⟩

end PdfCreator
